import Mathlib

/-!
# Verification of the stock-market scraping and analysis pipeline

A shallow embedding of the concurrency and computation core of the
repository (src/analisis.py, src/scraping_finanzas.py,
src/scraping_cotizacion.py, src/main.py), together with theorems that
settle the specification's claims about it.

Python floats are modelled as rationals; `None` and `nan` are explicit
values; fallible code is modelled with `Except`; the thread orchestration
is modelled as a transition system (worker pool) and as admissible event
traces (stage graph).
-/

set_option autoImplicit false

namespace Bolsa

/-- A Python scalar as it occurs in the pipeline's dataframes: a float
(modelled as a rational), `None`, the float `nan`, or a string.  The
`str` constructor stands for a non-numeric string, i.e. one on which
Python `float()` raises `ValueError`; the pipeline's numeric columns come
from SQLite `REAL` columns through `read_csv`, so they only ever hold
floats or `nan`, never numeric strings. -/
inductive PyVal where
  | num (q : ℚ)
  | none_
  | nan
  | str (s : String)
  deriving DecidableEq, Repr

/-- `pd.isna` on a scalar: true for `None` and for `nan`, false for floats
and strings. -/
def pyIsNA : PyVal → Bool
  | PyVal.none_ => true
  | PyVal.nan => true
  | _ => false

/-- Python `v == 0` for the values reaching the denominator test in
`safe_ratio`: a float equals `0` when its value does; `None` and strings
compare unequal, and `nan == 0` is false. -/
def pyEqZero : PyVal → Bool
  | PyVal.num q => q == 0
  | _ => false

/-- Python `v <= c` for a float bound `c`.  `nan <= c` is false in Python.
`None` and strings would raise `TypeError`, but every call site guards
them out (`deuda_ok`), so the `false` returned for them is never relied
upon. -/
def pyLe (v : PyVal) (c : ℚ) : Bool :=
  match v with
  | PyVal.num q => q ≤ c
  | _ => false

/-- Python `v >= c` for a float bound `c`; same conventions as `pyLe`. -/
def pyGe (v : PyVal) (c : ℚ) : Bool :=
  match v with
  | PyVal.num q => c ≤ q
  | _ => false

/-- Python `a / b` on floats.  Non-float operands would raise `TypeError`;
they are filtered out by the guards of `safe_div` for the data this
program carries, so the `nan` fallback is a formal placeholder. -/
def pyDiv : PyVal → PyVal → PyVal
  | PyVal.num a, PyVal.num b => PyVal.num (a / b)
  | _, _ => PyVal.nan

/-- Embeds `safe_ratio` from `calcular_ratios` (analisis.py lines 66-71):
`None` if the numerator is `None` or NA, `None` if the denominator is
`None`, NA or equal to `0`, and the quotient otherwise. -/
def safe_div (a b : PyVal) : PyVal :=
  if a == PyVal.none_ || pyIsNA a then PyVal.none_
  else if b == PyVal.none_ || pyIsNA b || pyEqZero b then PyVal.none_
  else pyDiv a b

/-- One row of the working dataset built by `ejecutar_analisis`
(analisis.py lines 175-183): the cleaned finance columns merged with the
quote columns `value`, `var`, `max`, `min` (the join key `name` is
dropped). -/
structure WorkRow where
  nombre : String
  ticker : String
  per : PyVal
  bpa : PyVal
  ebitda : PyVal
  beneficio : PyVal
  deuda : PyVal
  fecha_registro : String
  value : PyVal
  var : PyVal
  max : PyVal
  min : PyVal
  deriving DecidableEq, Repr

/-- Embeds the body of `calcular_ratios` (analisis.py lines 58-77): the
two ratio columns produced for each row of the dataset. -/
def calcular_ratios (df : List WorkRow) : List (PyVal × PyVal) :=
  df.map (fun r => (safe_div r.deuda r.ebitda, safe_div r.ebitda r.beneficio))

/-- Embeds `per_sig` from `calcular_senales` (analisis.py lines 87-98):
`None`/NA classify as `Desconocido`; a float is `Barata` below 12, `Media`
below 20 and `Cara` from 20 on; a non-numeric string makes `float()`
raise, which the bare `except` turns into `Desconocido`. -/
def per_sig : PyVal → String
  | PyVal.none_ => "Desconocido"
  | PyVal.nan => "Desconocido"
  | PyVal.num x => if x < 12 then "Barata" else if x < 20 then "Media" else "Cara"
  | PyVal.str _ => "Desconocido"

/-- Embeds `bpa_sig` from `calcular_senales` (analisis.py lines 100-111):
same shape as `per_sig` with thresholds 0.5 and 1.5 and labels
`Débil`, `Media`, `Alta`. -/
def bpa_sig : PyVal → String
  | PyVal.none_ => "Desconocido"
  | PyVal.nan => "Desconocido"
  | PyVal.num x => if x < 1/2 then "Débil" else if x < 3/2 then "Media" else "Alta"
  | PyVal.str _ => "Desconocido"

/-- Embeds the body of `calcular_senales` (analisis.py lines 80-117): the
two signal columns produced for each row of the dataset. -/
def calcular_senales (df : List WorkRow) : List (String × String) :=
  df.map (fun r => (per_sig r.per, bpa_sig r.bpa))

/-- The pandas row that `df.apply(recomendar, axis=1)` passes to
`recomendar`: a series indexed by the column labels of the working
dataset.  These, and only these, are the labels present. -/
def WorkRow.toRow (r : WorkRow) : List (String × PyVal) :=
  [("nombre", PyVal.str r.nombre), ("ticker", PyVal.str r.ticker),
   ("per", r.per), ("bpa", r.bpa), ("ebitda", r.ebitda),
   ("beneficio", r.beneficio), ("deuda", r.deuda),
   ("fecha_registro", PyVal.str r.fecha_registro),
   ("value", r.value), ("var", r.var), ("max", r.max), ("min", r.min)]

/-- `pandas.Series.get(key, default)`: the value at the label if present,
else the default. -/
def rowGet (row : List (String × PyVal)) (key : String) (d : PyVal) : PyVal :=
  match row.find? (fun p => p.fst == key) with
  | some p => p.snd
  | none => d

/-- Embeds `recomendar` from `calcular_recomendacion` (analisis.py lines
127-144).  It reads the labels `per_señal`, `bpa_señal` and
`deuda_ebitda` from the row it is given, with defaults `"Desconocido"`,
`"Desconocido"` and `None`.  The source's early returns fall through from
the Buy block to the Sell block; the `if`/`else if` chain here is
equivalent because the Buy guard (`per` in Barata/Media) and the Sell
guard (`per` = Cara) are mutually exclusive. -/
def recomendar (row : List (String × PyVal)) : String :=
  let per := rowGet row "per_señal" (PyVal.str "Desconocido")
  let bpa := rowGet row "bpa_señal" (PyVal.str "Desconocido")
  let de := rowGet row "deuda_ebitda" PyVal.none_
  let deuda_ok := !(de == PyVal.none_) && !(pyIsNA de)
  if (per == PyVal.str "Barata" || per == PyVal.str "Media")
      && (bpa == PyVal.str "Media" || bpa == PyVal.str "Alta")
      && (!deuda_ok || pyLe de 6) then "Comprar"
  else if (per == PyVal.str "Cara") && (bpa == PyVal.str "Débil")
      && ((deuda_ok && pyGe de 4) || !deuda_ok) then "Vender"
  else "Mantener"

/-- Embeds the body of `calcular_recomendacion` (analisis.py lines
120-149) as the stage graph executes it: `recomendar` is applied to each
row of the dataframe `df` that `ejecutar_analisis` hands to the thread —
the un-augmented working dataset, whose rows are `WorkRow.toRow`. -/
def calcular_recomendacion (df : List WorkRow) : List String :=
  df.map (fun r => recomendar r.toRow)

/-- Modelled from the spec (section 4.3, Recommendation stage): the
recommendation rule over the Signal labels and the Ratio stage's
`deuda_ebitda` output, evaluated in the stated precedence order. -/
def recomendacion_spec (per bpa : String) (de : Option ℚ) : String :=
  if (per == "Barata" || per == "Media") && (bpa == "Media" || bpa == "Alta")
      && (match de with | none => true | some q => decide (q ≤ 6)) then "Comprar"
  else if per == "Cara" && bpa == "Débil"
      && (match de with | none => true | some q => decide (4 ≤ q)) then "Vender"
  else "Mantener"

/-! ## Result merger (tail of `ejecutar_analisis`, analisis.py lines 203-210) -/

/-- A value stored in the shared `resultados` dictionary: the column sets
published by the ratio, signal and recommendation threads, or the file
path published by the raw-merge thread (`procesar_dataset_unido`). -/
inductive StageVal where
  | ratioCols (l : List (PyVal × PyVal))
  | senalCols (l : List (String × String))
  | recomendCol (l : List String)
  | rutaCsv (p : String)
  deriving DecidableEq, Repr

/-- Python dictionary subscription `resultados[k]`: the value when the
key is present, a `KeyError` otherwise. -/
def getKey (resultados : List (String × StageVal)) (k : String) :
    Except String StageVal :=
  match resultados.find? (fun p => p.fst == k) with
  | some p => Except.ok p.snd
  | none => Except.error ("KeyError: " ++ k)

/-- Embeds the merge step of `ejecutar_analisis` (analisis.py lines
203-210): `pd.concat` of the base dataframe with `resultados["ratios"]`,
`resultados["senales"]` and `resultados["recomend"]`, in that order.
These three subscriptions are the only reads of `resultados`. -/
def merge_resultados (df : List WorkRow) (resultados : List (String × StageVal)) :
    Except String (List WorkRow × StageVal × StageVal × StageVal) := do
  let r ← getKey resultados "ratios"
  let s ← getKey resultados "senales"
  let c ← getKey resultados "recomend"
  return (df, r, s, c)

/-- Whether a key is present in the `resultados` dictionary. -/
def hasKey (resultados : List (String × StageVal)) (k : String) : Bool :=
  resultados.any (fun p => p.fst == k)

/-! ## The SQLite store (scraping_finanzas.py) -/

/-- One row of the `empresas` table (scraping_finanzas.py lines 82-89):
`id INTEGER PRIMARY KEY AUTOINCREMENT, nombre, ticker UNIQUE, url`. -/
structure EmpRec where
  id : ℕ
  nombre : String
  ticker : String
  url : String
  deriving DecidableEq, Repr

/-- One row of the `finanzas` table (scraping_finanzas.py lines 91-103). -/
structure FinRec where
  empresa_id : ℕ
  fecha_registro : String
  per : PyVal
  bpa : PyVal
  ebitda : PyVal
  beneficio : PyVal
  deuda : PyVal
  deriving DecidableEq, Repr

/-- The two tables of `raw/finanzas/finanzas_empresas.db`. -/
structure Store where
  empresas : List EmpRec
  finanzas : List FinRec
  deriving DecidableEq, Repr

/-- The configured company list `EMPRESAS` (scraping_finanzas.py lines
42-51), as (name, ticker, url) triples. -/
def EMPRESAS : List (String × String × String) :=
  [("BBVA", "BBVA", "https://cincodias.elpais.com/mercados/empresas/bbva/"),
   ("CaixaBank", "CABK", "https://cincodias.elpais.com/mercados/empresas/caixabank/"),
   ("Iberdrola", "IBE", "https://cincodias.elpais.com/mercados/empresas/iberdrola/"),
   ("Endesa", "ELE", "https://cincodias.elpais.com/mercados/empresas/endesa/"),
   ("Repsol", "REP", "https://cincodias.elpais.com/mercados/empresas/repsol/"),
   ("Telefónica", "TEF", "https://cincodias.elpais.com/mercados/empresas/telefonica/"),
   ("Inditex", "ITX", "https://cincodias.elpais.com/mercados/empresas/inditex/"),
   ("AENA", "AENA", "https://cincodias.elpais.com/mercados/empresas/aena/")]

/-- Whether some row of the `empresas` table carries the given ticker. -/
def hasTicker (tbl : List EmpRec) (t : String) : Bool :=
  tbl.any (fun e => e.ticker == t)

/-- The id `AUTOINCREMENT` assigns to the next inserted row: one more
than the largest id in the (append-only) table. -/
def nextId (tbl : List EmpRec) : ℕ :=
  (tbl.map (fun e => e.id)).foldr Nat.max 0 + 1

/-- `INSERT OR IGNORE INTO empresas` (scraping_finanzas.py lines
105-109): the `ticker UNIQUE` constraint makes the insert a no-op when
the ticker is already present, otherwise a fresh row is appended. -/
def insert_or_ignore (tbl : List EmpRec) (nombre ticker url : String) :
    List EmpRec :=
  if hasTicker tbl ticker then tbl
  else tbl ++ [⟨nextId tbl, nombre, ticker, url⟩]

/-- The `for emp in EMPRESAS` loop of `inicializar_bd`
(scraping_finanzas.py lines 105-109): one `INSERT OR IGNORE` per
configured company. -/
def registrar_empresas (tbl : List EmpRec)
    (l : List (String × String × String)) : List EmpRec :=
  l.foldl (fun t e => insert_or_ignore t e.1 e.2.1 e.2.2) tbl

/-- Embeds `inicializar_bd` (scraping_finanzas.py lines 77-116): insert
every configured company with `INSERT OR IGNORE`, then build the
ticker-to-id map from `SELECT id, ticker FROM empresas`. -/
def inicializar_bd (tbl : List EmpRec) : List EmpRec × List (String × ℕ) :=
  let tbl2 := registrar_empresas tbl EMPRESAS
  (tbl2, tbl2.map (fun e => (e.ticker, e.id)))

/-- The store write of `procesar_empresa` (scraping_finanzas.py lines
191-200): `INSERT INTO finanzas` appends one snapshot row; the
`empresas` table is not touched. -/
def appendSnapshot (st : Store) (f : FinRec) : Store :=
  { st with finanzas := st.finanzas ++ [f] }

/-- One row of the `SELECT` that builds `finanzas_limpias.csv`
(scraping_finanzas.py lines 245-252). -/
structure FinRow where
  nombre : String
  ticker : String
  per : PyVal
  bpa : PyVal
  ebitda : PyVal
  beneficio : PyVal
  deuda : PyVal
  fecha_registro : String
  deriving DecidableEq, Repr

/-- Embeds the query `SELECT ... FROM finanzas JOIN empresas ON
empresas.id = finanzas.empresa_id` (scraping_finanzas.py lines 245-252):
one output row per (snapshot, matching company) pair — every snapshot
ever inserted, with no most-recent filtering. -/
def queryJoined (st : Store) : List FinRow :=
  st.finanzas.flatMap (fun f =>
    (st.empresas.filter (fun e => e.id == f.empresa_id)).map (fun e =>
      ⟨e.nombre, e.ticker, f.per, f.bpa, f.ebitda, f.beneficio, f.deuda,
       f.fecha_registro⟩))

/-- One row of the cleaned quote table `cotizaciones_limpias.csv`
(scraping_cotizacion.py lines 105-113 and 127-131). -/
structure QuoteRow where
  link : String
  name : String
  value : PyVal
  var : PyVal
  datetime : String
  max : PyVal
  min : PyVal
  deriving DecidableEq, Repr

/-- Embeds the `pd.merge(fin, cot[...], left_on="nombre",
right_on="name", how="left")` plus the drop of `name` (analisis.py lines
175-183): each finance row is paired with every quote row of the same
name, or kept once with `nan` quote fields when no quote matches. -/
def construir_dataset (fin : List FinRow) (cot : List QuoteRow) :
    List WorkRow :=
  fin.flatMap (fun f =>
    let coincidencias := cot.filter (fun c => c.name == f.nombre)
    if coincidencias.isEmpty then
      [⟨f.nombre, f.ticker, f.per, f.bpa, f.ebitda, f.beneficio, f.deuda,
        f.fecha_registro, PyVal.nan, PyVal.nan, PyVal.nan, PyVal.nan⟩]
    else
      coincidencias.map (fun c =>
        ⟨f.nombre, f.ticker, f.per, f.bpa, f.ebitda, f.beneficio, f.deuda,
         f.fecha_registro, c.value, c.var, c.max, c.min⟩))

/-! ## The bounded worker pool (scraping_finanzas.py lines 172-236)

`ejecutar_scraping_finanzas` starts one thread per company and a
semaphore initialised to `max_hilos_concurrentes`.  Each thread runs
`procesar_empresa`: `sem.acquire()`, then a `try` block holding the
whole fetch/extract/write sequence, an `except` that records any failure
with the company name, and a `finally` that releases the semaphore.  We
model this as a transition system: a task is `inactivo` while blocked in
`sem.acquire`, `activo` while it holds an admission slot (the entire
try block runs inside this state), and `terminado` once the try/except
has produced its outcome and the `finally` has released the slot. -/

/-- The outcome of one task: success, or a failure recorded by the
`except` branch together with the company identity and the error text. -/
inductive Outcome where
  | exito
  | fallo (empresa : String) (err : String)
  deriving DecidableEq, Repr

/-- The state of one worker task. -/
inductive TaskSt where
  | inactivo
  | activo
  | terminado (o : Outcome)
  deriving DecidableEq, Repr

/-- Whether a task has finished (with either outcome). -/
def TaskSt.done : TaskSt → Bool
  | TaskSt.terminado _ => true
  | _ => false

/-- A pool state over `n` tasks: the per-task states and the semaphore's
available-permit count. -/
structure PoolSt (n : ℕ) where
  tasks : Fin n → TaskSt
  avail : ℕ

/-- The transitions of the pool.  `adquirir` is `sem.acquire` returning
(only possible while a permit is available); `terminar` is the try/except
body completing with outcome `o` followed by the `finally` release.  No
other code touches the semaphore or the task states. -/
inductive PoolStep {n : ℕ} : PoolSt n → PoolSt n → Prop where
  | adquirir (s : PoolSt n) (i : Fin n) :
      s.tasks i = TaskSt.inactivo → 0 < s.avail →
      PoolStep s ⟨Function.update s.tasks i TaskSt.activo, s.avail - 1⟩
  | terminar (s : PoolSt n) (i : Fin n) (o : Outcome) :
      s.tasks i = TaskSt.activo →
      PoolStep s ⟨Function.update s.tasks i (TaskSt.terminado o), s.avail + 1⟩

/-- The initial pool state: all tasks blocked in `sem.acquire`, the
semaphore holding `K` permits (`threading.Semaphore(max_hilos_concurrentes)`). -/
def poolInit (K n : ℕ) : PoolSt n := ⟨fun _ => TaskSt.inactivo, K⟩

/-- The states a run of `ejecutar_scraping_finanzas` with ceiling `K`
can reach. -/
inductive PoolReach (K : ℕ) {n : ℕ} : PoolSt n → Prop where
  | init : PoolReach K (poolInit K n)
  | step {s s' : PoolSt n} : PoolReach K s → PoolStep s s' → PoolReach K s'

/-- The number of tasks currently holding an admission slot. -/
def activeCount {n : ℕ} (s : PoolSt n) : ℕ :=
  (Finset.univ.filter (fun i => s.tasks i = TaskSt.activo)).card

/-- The number of finished tasks. -/
def doneCount {n : ℕ} (s : PoolSt n) : ℕ :=
  (Finset.univ.filter (fun i => (s.tasks i).done = true)).card

/-- The pool call returns once every thread has been joined, i.e. every
task has finished. -/
def PoolFinal {n : ℕ} (s : PoolSt n) : Prop :=
  ∀ i : Fin n, (s.tasks i).done = true

/-! ## The stage graph of `ejecutar_analisis` (analisis.py lines 185-201) -/

/-- The four analysis stages: the threads `h1` (ratios), `h2` (signals),
`h3` (recommendation) and `h4` (raw merge, `procesar_dataset_unido`). -/
inductive Etapa where
  | ratios
  | senales
  | recomend
  | unido
  deriving DecidableEq, Repr

/-- An event of a stage-graph execution: the main thread starting a
stage's thread, the stage's body running (computing and publishing its
result into `resultados` under the lock), or the main thread's `join` on
that stage returning. -/
inductive Ev where
  | start (e : Etapa)
  | run (e : Etapa)
  | joined (e : Etapa)
  deriving DecidableEq, Repr

/-- The list of stages. -/
def etapas : List Etapa := [Etapa.ratios, Etapa.senales, Etapa.recomend, Etapa.unido]

/-- The main-thread synchronization sequence of `ejecutar_analisis`
(analisis.py lines 193-201): `h1.start(); h2.start(); h1.join();
h2.join(); h3.start(); h4.start(); h3.join(); h4.join()`. -/
def mainSeq : List Ev :=
  [Ev.start Etapa.ratios, Ev.start Etapa.senales,
   Ev.joined Etapa.ratios, Ev.joined Etapa.senales,
   Ev.start Etapa.recomend, Ev.start Etapa.unido,
   Ev.joined Etapa.recomend, Ev.joined Etapa.unido]

/-- Position of an event in a trace. -/
def pos (t : List Ev) (e : Ev) : ℕ := t.indexOf e

/-- A trace of one execution of the stage graph is admissible when every
relevant event occurs exactly once, the main-thread events keep their
program order, and each stage's body runs strictly between that stage's
`start` and the return of its `join` — which is exactly what
`threading.Thread.start`/`join` guarantee. -/
def Admisible (t : List Ev) : Bool :=
  ((mainSeq ++ etapas.map Ev.run).all (fun e => t.count e == 1)) &&
  ((mainSeq.zip mainSeq.tail).all (fun p => decide (pos t p.1 < pos t p.2))) &&
  (etapas.all (fun e =>
    decide (pos t (Ev.start e) < pos t (Ev.run e)) &&
    decide (pos t (Ev.run e) < pos t (Ev.joined e))))

/-! ## The pipeline driver (main.py) and the quote phase
(scraping_cotizacion.py) -/

/-- Path of the cleaned quote table. -/
def ruta_cotizaciones : String := "processed/cotizaciones_limpias.csv"

/-- Path of the cleaned finance table. -/
def ruta_finanzas : String := "processed/finanzas_limpias.csv"

/-- What `ejecutar_scraping_cotizacion`'s body runs into, covering each
of its failure points: `requests.get` raising (network error/timeout),
`raise_for_status` raising on an HTTP error status, the quotes table not
found (`RuntimeError("Tabla no localizada")`), or success with some
number of parsed rows.  Per-cell parse failures do not raise —
`clean_num` returns `None` — so they are part of `exito`. -/
inductive CotResultado where
  | errRed (msg : String)
  | errHTTP (code : ℕ)
  | sinTabla
  | exito (filas : ℕ)
  deriving DecidableEq, Repr

/-- Whether the quote phase's body fails. -/
def esFallo : CotResultado → Bool
  | CotResultado.exito _ => false
  | _ => true

/-- The body of `ejecutar_scraping_cotizacion` (scraping_cotizacion.py
lines 55-138), acting on a file system modelled as the list of paths
present: on success it writes the raw artifact and the cleaned quote
table; each failure point raises before either write. -/
def cotizacion_body (env : CotResultado) (fs : List String) :
    Except String (List String) :=
  match env with
  | CotResultado.errRed m => Except.error m
  | CotResultado.errHTTP c => Except.error ("HTTPError " ++ toString c)
  | CotResultado.sinTabla => Except.error "Tabla no localizada"
  | CotResultado.exito _ =>
      Except.ok (fs ++ ["raw/cotizaciones/cotizacion_fecha.csv", ruta_cotizaciones])

/-- Embeds `ejecutar_scraping_cotizacion` (scraping_cotizacion.py lines
53-142): the whole body sits in a `try`; the `except Exception` branch
logs the error and falls off the end, so the function returns normally
whatever happens. -/
def ejecutar_scraping_cotizacion (env : CotResultado) (fs : List String) :
    List String :=
  match cotizacion_body env fs with
  | Except.ok fs2 => fs2
  | Except.error _ => fs

/-- The file-system effect of a successful `ejecutar_scraping_finanzas`
run: it writes the cleaned finance table (scraping_finanzas.py lines
255-257). -/
def escribir_finanzas (fs : List String) : List String := fs ++ [ruta_finanzas]

/-- Embeds `obtener_cotizaciones_limpias` (analisis.py lines 40-44): the
first statement of the analysis phase raises `FileNotFoundError` when
the cleaned quote table is absent. -/
def obtener_cotizaciones_limpias (fs : List String) : Except String Unit :=
  if fs.contains ruta_cotizaciones then Except.ok ()
  else Except.error "FileNotFoundError: Falta processed/cotizaciones_limpias.csv"

/-- Embeds `main` (main.py lines 40-56): phase 1 (quotes), phase 2
(concurrent finance scraping), phase 3 (analysis).  Phase 1 cannot raise
(its catch-all), so phases 2 and 3 always run; the first component is
the file system after phase 2, the second the analysis phase's first
step. -/
def main_pipeline (env : CotResultado) (fs0 : List String) :
    List String × Except String Unit :=
  let fs1 := ejecutar_scraping_cotizacion env fs0
  let fs2 := escribir_finanzas fs1
  (fs2, obtener_cotizaciones_limpias fs2)

/-! ## Theorems -/

/-- C3: `deuda_ebitda` (and likewise `ebitda_beneficio`) is absent iff
the numerator is absent, the denominator is absent, or the denominator is
`0`; otherwise it equals the exact quotient.  Division by zero and
missing operands map to absent, never to an error or infinity. -/
theorem c3_ratio_politica_ausencia :
    (∀ x y : ℚ, safe_div (PyVal.num x) (PyVal.num y) =
        if y = 0 then PyVal.none_ else PyVal.num (x / y)) ∧
    (∀ x y : ℚ, safe_div (PyVal.num x) (PyVal.num y) = PyVal.none_ ↔ y = 0) ∧
    (∀ b, safe_div PyVal.none_ b = PyVal.none_) ∧
    (∀ b, safe_div PyVal.nan b = PyVal.none_) ∧
    (∀ a, safe_div a PyVal.none_ = PyVal.none_) ∧
    (∀ a, safe_div a PyVal.nan = PyVal.none_) ∧
    (∀ a, safe_div a (PyVal.num 0) = PyVal.none_) ∧
    (∀ df, calcular_ratios df =
      df.map (fun r => (safe_div r.deuda r.ebitda, safe_div r.ebitda r.beneficio))) := by
  refine ⟨?_, ?_, ?_, ?_, ?_, ?_, ?_, fun _ => rfl⟩
  · intro x y
    by_cases hy : y = 0 <;> simp [safe_div, pyIsNA, pyEqZero, pyDiv, hy]
  · intro x y
    by_cases hy : y = 0 <;> simp [safe_div, pyIsNA, pyEqZero, pyDiv, hy]
  · intro b; rfl
  · intro b; rfl
  · intro a; cases a <;> rfl
  · intro a; cases a <;> rfl
  · intro a; cases a <;> simp [safe_div, pyIsNA, pyEqZero, pyDiv]

/-- C4: the Signal stage classifies `per` as Barata below 12, Media in
[12, 20), Cara from 20 on, and `bpa` as Débil below 0.5, Media in
[0.5, 1.5), Alta from 1.5 on; absent or non-numeric inputs classify as
Desconocido.  The boundary cases 11.9, 12.0, 19.99, 20.0 and `None`
behave as stated. -/
theorem c4_senales_umbrales :
    (∀ q : ℚ, (per_sig (PyVal.num q) = "Barata" ↔ q < 12) ∧
              (per_sig (PyVal.num q) = "Media" ↔ 12 ≤ q ∧ q < 20) ∧
              (per_sig (PyVal.num q) = "Cara" ↔ 20 ≤ q)) ∧
    (∀ q : ℚ, (bpa_sig (PyVal.num q) = "Débil" ↔ q < 1/2) ∧
              (bpa_sig (PyVal.num q) = "Media" ↔ 1/2 ≤ q ∧ q < 3/2) ∧
              (bpa_sig (PyVal.num q) = "Alta" ↔ 3/2 ≤ q)) ∧
    per_sig PyVal.none_ = "Desconocido" ∧
    per_sig PyVal.nan = "Desconocido" ∧
    (∀ s, per_sig (PyVal.str s) = "Desconocido") ∧
    bpa_sig PyVal.none_ = "Desconocido" ∧
    bpa_sig PyVal.nan = "Desconocido" ∧
    (∀ s, bpa_sig (PyVal.str s) = "Desconocido") ∧
    per_sig (PyVal.num (119/10)) = "Barata" ∧
    per_sig (PyVal.num 12) = "Media" ∧
    per_sig (PyVal.num (1999/100)) = "Media" ∧
    per_sig (PyVal.num 20) = "Cara" ∧
    (∀ df, calcular_senales df = df.map (fun r => (per_sig r.per, bpa_sig r.bpa))) := by
  refine ⟨?_, ?_, rfl, rfl, fun _ => rfl, rfl, rfl, fun _ => rfl,
    by norm_num [per_sig], by norm_num [per_sig], by norm_num [per_sig],
    by norm_num [per_sig], fun _ => rfl⟩
  · intro q
    simp only [per_sig]
    split_ifs with h1 h2 <;>
      refine ⟨?_, ?_, ?_⟩ <;> constructor <;> intro h <;>
      first
        | rfl
        | linarith
        | exact ⟨by linarith, by linarith⟩
        | exact absurd h (by decide)
  · intro q
    simp only [bpa_sig]
    split_ifs with h1 h2 <;>
      refine ⟨?_, ?_, ?_⟩ <;> constructor <;> intro h <;>
      first
        | rfl
        | linarith
        | exact ⟨by linarith, by linarith⟩
        | exact absurd h (by decide)

/-- A concrete working-dataset row whose financial fields make the spec's
rule recommend Buy: per 10 (Barata), bpa 2 (Alta), deuda 10, ebitda 2
(ratio 5 ≤ 6). -/
def filaPrueba : WorkRow :=
  ⟨"BBVA", "BBVA", PyVal.num 10, PyVal.num 2, PyVal.num 2, PyVal.num 1,
   PyVal.num 10, "2024-01-01", PyVal.nan, PyVal.nan, PyVal.nan, PyVal.nan⟩

/-- C1: as executed by the graph, the Recommendation stage does NOT read
the Signal or Ratio outputs: the dataframe handed to
`calcular_recomendacion` is the un-augmented working dataset, whose rows
lack the labels `per_señal`, `bpa_señal` and `deuda_ebitda`, so every
`Series.get` returns its default and every row is classified
`Mantener`.  At `filaPrueba` the signals are Barata/Alta and the debt
ratio is 5, so the claimed rule yields `Comprar`, yet the code yields
`Mantener`. -/
theorem c1_recomendacion_constante_mantener :
    (∀ df : List WorkRow, calcular_recomendacion df = df.map (fun _ => "Mantener")) ∧
    (∀ r : WorkRow,
      rowGet r.toRow "per_señal" (PyVal.str "Desconocido") = PyVal.str "Desconocido" ∧
      rowGet r.toRow "bpa_señal" (PyVal.str "Desconocido") = PyVal.str "Desconocido" ∧
      rowGet r.toRow "deuda_ebitda" PyVal.none_ = PyVal.none_) ∧
    per_sig filaPrueba.per = "Barata" ∧
    bpa_sig filaPrueba.bpa = "Alta" ∧
    safe_div filaPrueba.deuda filaPrueba.ebitda = PyVal.num 5 ∧
    recomendacion_spec "Barata" "Alta" (some 5) = "Comprar" ∧
    calcular_recomendacion [filaPrueba] = ["Mantener"] := by
  refine ⟨fun df => rfl, fun r => ⟨rfl, rfl, rfl⟩, rfl,
    by norm_num [bpa_sig, filaPrueba],
    by norm_num +decide [safe_div, pyIsNA, pyEqZero, pyDiv, filaPrueba],
    by norm_num [recomendacion_spec], rfl⟩

/-- The results dictionary populated with the three column-producing
stages only: no `dataset_unido` key. -/
def resultadosTres : List (String × StageVal) :=
  [("ratios", StageVal.ratioCols []), ("senales", StageVal.senalCols []),
   ("recomend", StageVal.recomendCol [])]

/-- C7 counterexample: the merger succeeds on a results map in which the
raw-merge stage's key `dataset_unido` was never populated, so it does not
require all four stage keys. -/
theorem c7_contraejemplo_cuatro_claves :
    hasKey resultadosTres "dataset_unido" = false ∧
    merge_resultados [] resultadosTres =
      Except.ok ([], StageVal.ratioCols [], StageVal.senalCols [],
        StageVal.recomendCol []) := by
  exact ⟨rfl, rfl⟩

/-- Whether an `Except` computation succeeded. -/
def esOk {ε α : Type} : Except ε α → Bool
  | Except.ok _ => true
  | Except.error _ => false

/-- A key is present iff the linear search of `getKey` finds it. -/
lemma hasKey_iff_find (m : List (String × StageVal)) (k : String) :
    hasKey m k = true ↔ (m.find? (fun p => p.fst == k)).isSome = true := by
  rw [List.find?_isSome, hasKey, List.any_eq_true]

/-- C7 amended: the merger requires exactly the three keys `ratios`,
`senales` and `recomend`; it fails (with a `KeyError`) iff one of those
three is missing, and never looks at the raw-merge key. -/
theorem c7_merger_tres_claves (df : List WorkRow)
    (m : List (String × StageVal)) :
    esOk (merge_resultados df m) = true ↔
      (hasKey m "ratios" = true ∧ hasKey m "senales" = true ∧
       hasKey m "recomend" = true) := by
  rcases h1 : m.find? (fun p => p.fst == "ratios") with _ | p1 <;>
    rcases h2 : m.find? (fun p => p.fst == "senales") with _ | p2 <;>
    rcases h3 : m.find? (fun p => p.fst == "recomend") with _ | p3 <;>
    simp [merge_resultados, getKey, esOk, h1, h2, h3, hasKey_iff_find,
      Except.map, Except.bind, bind, Functor.map, pure, Except.pure]

/-- C10: every failure of the quote-scraping body is caught — the phase
returns normally with the file system unchanged, so the driver proceeds:
the finance phase still writes its artifact, and the missing quotes table
is detected only when the analysis phase raises `FileNotFoundError`. -/
theorem c10_fase_cotizaciones_no_propaga (env : CotResultado)
    (fs0 : List String) (hfail : esFallo env = true)
    (habs : ruta_cotizaciones ∉ fs0) :
    (∃ m, cotizacion_body env fs0 = Except.error m) ∧
    ejecutar_scraping_cotizacion env fs0 = fs0 ∧
    ruta_finanzas ∈ (main_pipeline env fs0).1 ∧
    (main_pipeline env fs0).2 =
      Except.error "FileNotFoundError: Falta processed/cotizaciones_limpias.csv" := by
  have hbody : ∃ m, cotizacion_body env fs0 = Except.error m := by
    cases env with
    | errRed m => exact ⟨m, rfl⟩
    | errHTTP c => exact ⟨"HTTPError " ++ toString c, rfl⟩
    | sinTabla => exact ⟨"Tabla no localizada", rfl⟩
    | exito filas => simp [esFallo] at hfail
  obtain ⟨m, hm⟩ := hbody
  have hnorm : ejecutar_scraping_cotizacion env fs0 = fs0 := by
    simp [ejecutar_scraping_cotizacion, hm]
  refine ⟨⟨m, hm⟩, hnorm, ?_, ?_⟩
  · simp [main_pipeline, escribir_finanzas, hnorm]
  · have hne : ruta_cotizaciones ≠ ruta_finanzas := by decide
    have hcont : (fs0 ++ [ruta_finanzas]).contains ruta_cotizaciones = false := by
      simp [habs, hne]
    simp [main_pipeline, escribir_finanzas, hnorm, obtener_cotizaciones_limpias, hcont]
    exact ⟨habs, hne⟩

/-- Witness for `c10_fase_cotizaciones_no_propaga`: the table-not-found
failure against an empty file system. -/
theorem c10_testigo :
    esFallo CotResultado.sinTabla = true ∧
    ruta_cotizaciones ∉ ([] : List String) ∧
    ((∃ m, cotizacion_body CotResultado.sinTabla [] = Except.error m) ∧
     ejecutar_scraping_cotizacion CotResultado.sinTabla [] = [] ∧
     ruta_finanzas ∈ (main_pipeline CotResultado.sinTabla []).1 ∧
     (main_pipeline CotResultado.sinTabla []).2 =
       Except.error "FileNotFoundError: Falta processed/cotizaciones_limpias.csv") :=
  ⟨rfl, by simp, c10_fase_cotizaciones_no_propaga CotResultado.sinTabla [] rfl (by simp)⟩

/-- C5: in every admissible execution trace of the stage graph, the
Recommendation body runs only after the joins of both the Ratio and the
Signal stages have returned; and the main thread's synchronization
sequence performs exactly the two joins — first on the Ratio/Signal
pair, then on the Recommendation/RawMerge pair. -/
theorem c5_barreras_del_grafo (t : List Ev) (h : Admisible t = true) :
    pos t (Ev.joined Etapa.ratios) < pos t (Ev.run Etapa.recomend) ∧
    pos t (Ev.joined Etapa.senales) < pos t (Ev.run Etapa.recomend) ∧
    mainSeq.filter (fun e => match e with | Ev.joined _ => true | _ => false) =
      [Ev.joined Etapa.ratios, Ev.joined Etapa.senales,
       Ev.joined Etapa.recomend, Ev.joined Etapa.unido] ∧
    mainSeq.indexOf (Ev.joined Etapa.ratios) < mainSeq.indexOf (Ev.start Etapa.recomend) ∧
    mainSeq.indexOf (Ev.joined Etapa.senales) < mainSeq.indexOf (Ev.start Etapa.recomend) ∧
    mainSeq.indexOf (Ev.joined Etapa.ratios) < mainSeq.indexOf (Ev.start Etapa.unido) ∧
    mainSeq.indexOf (Ev.joined Etapa.senales) < mainSeq.indexOf (Ev.start Etapa.unido) := by
  simp only [Admisible, Bool.and_eq_true] at h
  have horden := h.1.2
  have hcuerpos := h.2
  rw [List.all_eq_true] at horden hcuerpos
  have hjs : pos t (Ev.joined Etapa.ratios) < pos t (Ev.joined Etapa.senales) := by
    have := horden (Ev.joined Etapa.ratios, Ev.joined Etapa.senales) (by decide)
    simpa using this
  have hsr : pos t (Ev.joined Etapa.senales) < pos t (Ev.start Etapa.recomend) := by
    have := horden (Ev.joined Etapa.senales, Ev.start Etapa.recomend) (by decide)
    simpa using this
  have hrec : pos t (Ev.start Etapa.recomend) < pos t (Ev.run Etapa.recomend) := by
    have := hcuerpos Etapa.recomend (by decide)
    simp only [Bool.and_eq_true, decide_eq_true_eq] at this
    exact this.1
  refine ⟨?_, ?_, by decide, by decide, by decide, by decide, by decide⟩
  · omega
  · omega

/-- A fully sequential admissible trace of the stage graph. -/
def trazaSec : List Ev :=
  [Ev.start Etapa.ratios, Ev.run Etapa.ratios,
   Ev.start Etapa.senales, Ev.run Etapa.senales,
   Ev.joined Etapa.ratios, Ev.joined Etapa.senales,
   Ev.start Etapa.recomend, Ev.start Etapa.unido,
   Ev.run Etapa.recomend, Ev.run Etapa.unido,
   Ev.joined Etapa.recomend, Ev.joined Etapa.unido]

/-- Witness for `c5_barreras_del_grafo` at the sequential trace. -/
theorem c5_testigo :
    Admisible trazaSec = true ∧
    (pos trazaSec (Ev.joined Etapa.ratios) < pos trazaSec (Ev.run Etapa.recomend) ∧
     pos trazaSec (Ev.joined Etapa.senales) < pos trazaSec (Ev.run Etapa.recomend) ∧
     mainSeq.filter (fun e => match e with | Ev.joined _ => true | _ => false) =
       [Ev.joined Etapa.ratios, Ev.joined Etapa.senales,
        Ev.joined Etapa.recomend, Ev.joined Etapa.unido] ∧
     mainSeq.indexOf (Ev.joined Etapa.ratios) < mainSeq.indexOf (Ev.start Etapa.recomend) ∧
     mainSeq.indexOf (Ev.joined Etapa.senales) < mainSeq.indexOf (Ev.start Etapa.recomend) ∧
     mainSeq.indexOf (Ev.joined Etapa.ratios) < mainSeq.indexOf (Ev.start Etapa.unido) ∧
     mainSeq.indexOf (Ev.joined Etapa.senales) < mainSeq.indexOf (Ev.start Etapa.unido)) :=
  ⟨by decide, c5_barreras_del_grafo trazaSec (by decide)⟩

/-- The progress rank of a task: it only ever moves forward. -/
def rango : TaskSt → ℕ
  | TaskSt.inactivo => 0
  | TaskSt.activo => 1
  | TaskSt.terminado _ => 2

/-- Total progress of a pool state; every step increases it by one. -/
def medida {n : ℕ} (s : PoolSt n) : ℕ :=
  Finset.univ.sum (fun i => rango (s.tasks i))

/-- Updating one task commutes with taking ranks pointwise. -/
lemma rango_update {n : ℕ} (f : Fin n → TaskSt) (i : Fin n) (v : TaskSt) :
    (fun j => rango (Function.update f i v j)) =
      Function.update (fun j => rango (f j)) i (rango v) := by
  funext j
  by_cases hj : j = i
  · subst hj; simp
  · simp [Function.update_noteq hj]

/-- The active-task set after an acquire step grows by exactly the
acquiring task. -/
lemma filtro_adquirir {n : ℕ} (f : Fin n → TaskSt) (i : Fin n)
    (h : f i = TaskSt.inactivo) :
    Finset.univ.filter (fun j => Function.update f i TaskSt.activo j = TaskSt.activo) =
      insert i (Finset.univ.filter (fun j => f j = TaskSt.activo)) := by
  ext j
  by_cases hj : j = i
  · subst hj; simp
  · simp [Function.update_noteq hj, hj]

/-- The active-task set after a finish step loses exactly the finishing
task. -/
lemma filtro_terminar {n : ℕ} (f : Fin n → TaskSt) (i : Fin n) (o : Outcome) :
    Finset.univ.filter
        (fun j => Function.update f i (TaskSt.terminado o) j = TaskSt.activo) =
      (Finset.univ.filter (fun j => f j = TaskSt.activo)).erase i := by
  ext j
  by_cases hj : j = i
  · subst hj; simp
  · simp [Function.update_noteq hj, hj]

/-- One pool step preserves the semaphore invariant. -/
lemma pool_invariante_paso {K n : ℕ} {s s' : PoolSt n} (hstep : PoolStep s s')
    (ih : s.avail + activeCount s = K) : s'.avail + activeCount s' = K := by
  cases hstep with
  | adquirir i hi hava =>
      have h1 : activeCount ⟨Function.update s.tasks i TaskSt.activo, s.avail - 1⟩ =
          activeCount s + 1 := by
        rw [activeCount, activeCount, filtro_adquirir s.tasks i hi,
          Finset.card_insert_of_not_mem (by simp [hi])]
      show s.avail - 1 + activeCount ⟨Function.update s.tasks i TaskSt.activo, s.avail - 1⟩ = K
      rw [h1]
      omega
  | terminar i o hi =>
      have hmem : i ∈ Finset.univ.filter (fun j => s.tasks j = TaskSt.activo) := by
        simp [hi]
      have h1 : activeCount ⟨Function.update s.tasks i (TaskSt.terminado o), s.avail + 1⟩ + 1 =
          activeCount s := by
        rw [activeCount, activeCount, filtro_terminar s.tasks i o,
          Finset.card_erase_add_one hmem]
      show s.avail + 1 +
        activeCount ⟨Function.update s.tasks i (TaskSt.terminado o), s.avail + 1⟩ = K
      omega

/-- Semaphore invariant: available permits plus tasks inside the
admission gate always equal the configured ceiling `K`. -/
lemma pool_invariante {K n : ℕ} {s : PoolSt n} (h : PoolReach K s) :
    s.avail + activeCount s = K := by
  induction h with
  | init =>
      simp [poolInit, activeCount]
  | step hr hstep ih =>
      exact pool_invariante_paso hstep ih

/-- As long as some task is unfinished and `K ≥ 1`, the pool can step:
either a permit is free and a blocked task acquires it, or some task is
inside the gate and can finish. -/
lemma pool_progreso {K n : ℕ} {s : PoolSt n} (hK : 1 ≤ K) (h : PoolReach K s)
    (hnf : ¬ PoolFinal s) : ∃ s', PoolStep s s' := by
  rw [PoolFinal] at hnf
  push_neg at hnf
  obtain ⟨i, hi⟩ := hnf
  rcases hcase : s.tasks i with _ | _ | o
  · by_cases hava : 0 < s.avail
    · exact ⟨_, PoolStep.adquirir s i hcase hava⟩
    · have hinv := pool_invariante h
      have hA : 0 < activeCount s := by omega
      obtain ⟨j, hj⟩ : ∃ j, s.tasks j = TaskSt.activo := by
        obtain ⟨j, hj⟩ := Finset.card_pos.mp hA
        exact ⟨j, (Finset.mem_filter.mp hj).2⟩
      exact ⟨_, PoolStep.terminar s j Outcome.exito hj⟩
  · exact ⟨_, PoolStep.terminar s i Outcome.exito hcase⟩
  · rw [hcase] at hi
    simp [TaskSt.done] at hi

/-- Each pool step increases the progress measure by exactly one. -/
lemma medida_paso {n : ℕ} {s s' : PoolSt n} (h : PoolStep s s') :
    medida s' = medida s + 1 := by
  cases h with
  | adquirir i hi hava =>
      have hmem := Finset.mem_univ i
      rw [medida, medida]
      rw [show (fun j => rango (Function.update s.tasks i TaskSt.activo j)) =
          Function.update (fun j => rango (s.tasks j)) i (rango TaskSt.activo) from
        rango_update s.tasks i TaskSt.activo]
      rw [Finset.sum_update_of_mem hmem,
        Finset.sum_eq_sum_diff_singleton_add hmem (fun j => rango (s.tasks j))]
      rw [hi]
      simp [rango]
      omega
  | terminar i o hi =>
      have hmem := Finset.mem_univ i
      rw [medida, medida]
      rw [show (fun j => rango (Function.update s.tasks i (TaskSt.terminado o) j)) =
          Function.update (fun j => rango (s.tasks j)) i (rango (TaskSt.terminado o)) from
        rango_update s.tasks i (TaskSt.terminado o)]
      rw [Finset.sum_update_of_mem hmem,
        Finset.sum_eq_sum_diff_singleton_add hmem (fun j => rango (s.tasks j))]
      rw [hi]
      simp [rango]
      omega

/-- A non-final pool state has measure strictly below the ceiling `2n`. -/
lemma medida_lt_final {n : ℕ} {s : PoolSt n} (h : ¬ PoolFinal s) :
    medida s < 2 * n := by
  rw [PoolFinal] at h
  push_neg at h
  obtain ⟨i, hi⟩ := h
  have hlt : medida s < Finset.univ.sum (fun _ : Fin n => 2) := by
    refine Finset.sum_lt_sum (fun j _ => ?_) ⟨i, Finset.mem_univ i, ?_⟩
    · cases s.tasks j <;> simp [rango]
    · rcases hcase : s.tasks i with _ | _ | o
      · simp [rango]
      · simp [rango]
      · rw [hcase] at hi; simp [TaskSt.done] at hi
  simpa [Finset.sum_const, Finset.card_univ, mul_comm] using hlt

/-- From any reachable state the pool can run to completion: every task
reaches a terminal outcome. -/
lemma pool_terminacion {K n : ℕ} (hK : 1 ≤ K) :
    ∀ m, ∀ s : PoolSt n, PoolReach K s → 2 * n - medida s ≤ m →
      ∃ sf, Relation.ReflTransGen PoolStep s sf ∧ PoolFinal sf := by
  intro m
  induction m with
  | zero =>
      intro s hs hm
      by_cases hf : PoolFinal s
      · exact ⟨s, Relation.ReflTransGen.refl, hf⟩
      · have := medida_lt_final hf
        omega
  | succ m ih =>
      intro s hs hm
      by_cases hf : PoolFinal s
      · exact ⟨s, Relation.ReflTransGen.refl, hf⟩
      · obtain ⟨s', hstep⟩ := pool_progreso hK hs hf
        have h1 := medida_paso hstep
        have h2 := medida_lt_final hf
        obtain ⟨sf, hrt, hff⟩ := ih s' (PoolReach.step hs hstep) (by omega)
        exact ⟨sf, Relation.ReflTransGen.head hstep hrt, hff⟩

/-- C2: with concurrency ceiling `K ≥ 1` over `n` entities, every
reachable pool state has at most `K` tasks holding the admission slot
(inside which the whole fetch/extract/write sequence runs); the run can
always be driven to completion, and a completed run carries exactly `n`
outcomes — one per entity. -/
theorem c2_pool_acotado (K n : ℕ) (s : PoolSt n) (hK : 1 ≤ K)
    (hs : PoolReach K s) :
    activeCount s ≤ K ∧
    (PoolFinal s → doneCount s = n) ∧
    (∃ sf, Relation.ReflTransGen PoolStep s sf ∧ PoolFinal sf) := by
  refine ⟨?_, ?_, pool_terminacion hK (2 * n) s hs (by omega)⟩
  · have := pool_invariante hs
    omega
  · intro hf
    rw [doneCount]
    rw [Finset.filter_true_of_mem (fun i _ => hf i), Finset.card_univ,
      Fintype.card_fin]

/-- Witness for `c2_pool_acotado`: the initial state of a run with
ceiling 1 over 2 entities. -/
theorem c2_testigo :
    1 ≤ 1 ∧
    (activeCount (poolInit 1 2) ≤ 1 ∧
     (PoolFinal (poolInit 1 2) → doneCount (poolInit 1 2) = 2) ∧
     (∃ sf, Relation.ReflTransGen PoolStep (poolInit 1 2) sf ∧ PoolFinal sf)) :=
  ⟨le_refl 1, c2_pool_acotado 1 2 (poolInit 1 2) (le_refl 1) PoolReach.init⟩

/-- The state after a task's `except` branch records a failure and its
`finally` releases the admission slot. -/
def tras_fallo {n : ℕ} (s : PoolSt n) (i : Fin n) (ent err : String) : PoolSt n :=
  ⟨Function.update s.tasks i (TaskSt.terminado (Outcome.fallo ent err)), s.avail + 1⟩

/-- C6: a failing task is caught at its own boundary: the failure is
recorded with the entity identity and error kind, the admission slot is
released, every sibling task's state is untouched, and the pool — still
able to step — runs on to a completed state in which all `n` tasks have
finished. -/
theorem c6_aislamiento_de_fallos (K n : ℕ) (s : PoolSt n) (i : Fin n)
    (ent err : String) (hK : 1 ≤ K) (hs : PoolReach K s)
    (hact : s.tasks i = TaskSt.activo) :
    PoolStep s (tras_fallo s i ent err) ∧
    (tras_fallo s i ent err).avail = s.avail + 1 ∧
    (tras_fallo s i ent err).tasks i = TaskSt.terminado (Outcome.fallo ent err) ∧
    (∀ j : Fin n, j ≠ i → (tras_fallo s i ent err).tasks j = s.tasks j) ∧
    PoolReach K (tras_fallo s i ent err) ∧
    (∃ sf, Relation.ReflTransGen PoolStep (tras_fallo s i ent err) sf ∧
      PoolFinal sf) := by
  have hstep : PoolStep s (tras_fallo s i ent err) := PoolStep.terminar s i _ hact
  have hreach : PoolReach K (tras_fallo s i ent err) := PoolReach.step hs hstep
  refine ⟨hstep, rfl, ?_, ?_, hreach,
    pool_terminacion hK (2 * n) _ hreach (by omega)⟩
  · simp [tras_fallo]
  · intro j hj
    simp [tras_fallo, Function.update_noteq hj]

/-- A reachable single-task pool state whose task holds the slot. -/
def estadoActivo : PoolSt 1 :=
  ⟨Function.update (poolInit 1 1).tasks 0 TaskSt.activo, (poolInit 1 1).avail - 1⟩

/-- `estadoActivo` really is reachable with ceiling 1. -/
lemma estadoActivo_alcanzable : PoolReach 1 estadoActivo :=
  PoolReach.step PoolReach.init
    (PoolStep.adquirir (poolInit 1 1) 0 rfl (by decide))

/-- Witness for `c6_aislamiento_de_fallos`: the single task fails with a
timeout while holding the slot. -/
theorem c6_testigo :
    1 ≤ 1 ∧
    estadoActivo.tasks 0 = TaskSt.activo ∧
    (PoolStep estadoActivo (tras_fallo estadoActivo 0 "BBVA" "Timeout") ∧
     (tras_fallo estadoActivo 0 "BBVA" "Timeout").avail = estadoActivo.avail + 1 ∧
     (tras_fallo estadoActivo 0 "BBVA" "Timeout").tasks 0 =
       TaskSt.terminado (Outcome.fallo "BBVA" "Timeout") ∧
     (∀ j : Fin 1, j ≠ 0 →
       (tras_fallo estadoActivo 0 "BBVA" "Timeout").tasks j = estadoActivo.tasks j) ∧
     PoolReach 1 (tras_fallo estadoActivo 0 "BBVA" "Timeout") ∧
     (∃ sf, Relation.ReflTransGen PoolStep (tras_fallo estadoActivo 0 "BBVA" "Timeout") sf ∧
       PoolFinal sf)) :=
  ⟨le_refl 1, by simp [estadoActivo],
   c6_aislamiento_de_fallos 1 1 estadoActivo 0 "BBVA" "Timeout" (le_refl 1)
     estadoActivo_alcanzable (by simp [estadoActivo])⟩

/-- An `INSERT OR IGNORE` never removes a ticker already present. -/
lemma hasTicker_insert_mono (tbl : List EmpRec) (nom tic url t0 : String)
    (h : hasTicker tbl t0 = true) :
    hasTicker (insert_or_ignore tbl nom tic url) t0 = true := by
  unfold insert_or_ignore
  split
  · exact h
  · simp only [hasTicker, List.any_append] at h ⊢
    rw [h]
    rfl

/-- After inserting a company its ticker is present. -/
lemma hasTicker_insert_self (tbl : List EmpRec) (nom tic url : String) :
    hasTicker (insert_or_ignore tbl nom tic url) tic = true := by
  unfold insert_or_ignore
  split
  · assumption
  · simp [hasTicker, List.any_append]

/-- Registering a batch preserves every ticker already present. -/
lemma hasTicker_registrar_mono (l : List (String × String × String))
    (tbl : List EmpRec) (t0 : String) (h : hasTicker tbl t0 = true) :
    hasTicker (registrar_empresas tbl l) t0 = true := by
  induction l generalizing tbl with
  | nil => exact h
  | cons e t ih =>
      exact ih (insert_or_ignore tbl e.1 e.2.1 e.2.2)
        (hasTicker_insert_mono tbl e.1 e.2.1 e.2.2 t0 h)

/-- After registering a batch, every ticker of the batch is present. -/
lemma hasTicker_registrar_todos (l : List (String × String × String))
    (tbl : List EmpRec) (e : String × String × String) (he : e ∈ l) :
    hasTicker (registrar_empresas tbl l) e.2.1 = true := by
  induction l generalizing tbl with
  | nil => cases he
  | cons c t ih =>
      rcases List.mem_cons.mp he with rfl | hmem
      · exact hasTicker_registrar_mono t _ e.2.1
          (hasTicker_insert_self tbl e.1 e.2.1 e.2.2)
      · exact ih (insert_or_ignore tbl c.1 c.2.1 c.2.2) hmem

/-- `INSERT OR IGNORE` of an already-present ticker is the identity. -/
lemma insert_or_ignore_id (tbl : List EmpRec) (nom tic url : String)
    (h : hasTicker tbl tic = true) : insert_or_ignore tbl nom tic url = tbl := by
  simp [insert_or_ignore, h]

/-- Registering a batch whose tickers are all present changes nothing. -/
lemma registrar_empresas_id (l : List (String × String × String))
    (tbl : List EmpRec) (h : ∀ e ∈ l, hasTicker tbl e.2.1 = true) :
    registrar_empresas tbl l = tbl := by
  induction l with
  | nil => rfl
  | cons c t ih =>
      show registrar_empresas (insert_or_ignore tbl c.1 c.2.1 c.2.2) t = tbl
      rw [insert_or_ignore_id tbl c.1 c.2.1 c.2.2 (h c (List.mem_cons_self c t))]
      exact ih (fun e he => h e (List.mem_cons_of_mem c he))

/-- C9: entity-identity resolution is idempotent — initialising the
store a second time returns the same `empresas` table and the same
ticker-to-id map (so resolving a ticker any number of times yields the
same id), and a pool write only appends a snapshot row, leaving the
entity table untouched. -/
theorem c9_identidad_idempotente (tbl : List EmpRec) :
    inicializar_bd (inicializar_bd tbl).1 = inicializar_bd tbl ∧
    (inicializar_bd (inicializar_bd tbl).1).2 = (inicializar_bd tbl).2 ∧
    (∀ (st : Store) (f : FinRec),
      (appendSnapshot st f).empresas = st.empresas ∧
      (appendSnapshot st f).finanzas = st.finanzas ++ [f]) := by
  have hfix : registrar_empresas (registrar_empresas tbl EMPRESAS) EMPRESAS =
      registrar_empresas tbl EMPRESAS :=
    registrar_empresas_id EMPRESAS (registrar_empresas tbl EMPRESAS)
      (fun e he => hasTicker_registrar_todos EMPRESAS tbl e he)
  have hpair : inicializar_bd (inicializar_bd tbl).1 = inicializar_bd tbl := by
    simp only [inicializar_bd, hfix]
  exact ⟨hpair, by rw [hpair], fun st f => ⟨rfl, rfl⟩⟩

/-- The single configured test entity for the dataset counterexample. -/
def empresaBBVA : EmpRec :=
  ⟨1, "BBVA", "BBVA", "https://cincodias.elpais.com/mercados/empresas/bbva/"⟩

/-- A snapshot of that entity taken on the given date. -/
def instantanea (fecha : String) : FinRec :=
  ⟨1, fecha, PyVal.num 10, PyVal.num 2, PyVal.num 2, PyVal.num 1, PyVal.num 10⟩

/-- The store after two pool runs over the single entity: each run
appended one snapshot via `INSERT INTO finanzas`. -/
def tiendaDosCorridas : Store :=
  appendSnapshot (appendSnapshot ⟨[empresaBBVA], []⟩ (instantanea "2024-01-01"))
    (instantanea "2024-01-02")

/-- A cleaned quote table holding the single entity's quote row. -/
def cotizacionBBVA : List QuoteRow :=
  [⟨"https://cincodias.elpais.com/mercados/empresas/bbva/", "BBVA",
    PyVal.num 9, PyVal.num 1, "2024-01-02 10:00:00", PyVal.num 10, PyVal.num 8⟩]

/-- C8 counterexample: after a second run the store holds one entity but
two snapshots, and the working dataset built for the analysis has two
rows for that entity — not one row per entity, because the query joins
every snapshot ever inserted with no most-recent filtering. -/
theorem c8_contraejemplo_filas_por_entidad :
    tiendaDosCorridas.empresas.length = 1 ∧
    (queryJoined tiendaDosCorridas).length = 2 ∧
    (construir_dataset (queryJoined tiendaDosCorridas) cotizacionBBVA).length = 2 ∧
    ((construir_dataset (queryJoined tiendaDosCorridas) cotizacionBBVA).filter
      (fun r => r.nombre == "BBVA")).length = 2 := by
  refine ⟨rfl, rfl, rfl, rfl⟩

/-- With pairwise-distinct quote names, a name matches at most one quote
row. -/
lemma filtro_cotizacion_le_uno (cot : List QuoteRow)
    (h : cot.Pairwise (fun a b => a.name ≠ b.name)) (n : String) :
    (cot.filter (fun c => c.name == n)).length ≤ 1 := by
  induction cot with
  | nil => simp
  | cons c t ih =>
      have hpair := List.pairwise_cons.mp h
      by_cases hc : c.name == n
      · have hnil : t.filter (fun d => d.name == n) = [] := by
          refine List.filter_eq_nil.mpr (fun d hd => ?_)
          have := hpair.1 d hd
          simp only [beq_iff_eq] at hc ⊢
          rw [← hc]
          exact fun hdn => this hdn.symm
        simp [List.filter_cons, hc, hnil]
      · simp only [List.filter_cons, hc, Bool.false_eq_true, if_false]
        exact ih hpair.2

/-- The joined snapshot query yields one row per snapshot when every
snapshot's entity id resolves to exactly one company row. -/
lemma longitud_queryJoined (emp : List EmpRec) (fin : List FinRec)
    (h : ∀ f ∈ fin, (emp.filter (fun e => e.id == f.empresa_id)).length = 1) :
    (queryJoined ⟨emp, fin⟩).length = fin.length := by
  induction fin with
  | nil => rfl
  | cons f t ih =>
      have ih2 := ih (fun g hg => h g (List.mem_cons_of_mem f hg))
      simp only [queryJoined, List.flatMap_cons, List.length_append,
        List.length_map, List.length_cons] at ih2 ⊢
      rw [h f (List.mem_cons_self f t), ih2]
      omega

/-- The left merge keeps exactly one row per finance row when quote
names are pairwise distinct. -/
lemma longitud_construir (fin : List FinRow) (cot : List QuoteRow)
    (h : cot.Pairwise (fun a b => a.name ≠ b.name)) :
    (construir_dataset fin cot).length = fin.length := by
  induction fin with
  | nil => rfl
  | cons f t ih =>
      simp only [construir_dataset, List.flatMap_cons, List.length_cons] at ih ⊢
      rw [List.length_append, ih]
      rcases hco : (cot.filter (fun c => c.name == f.nombre)).isEmpty with _ | _
      · have h1 : 0 < (cot.filter (fun c => c.name == f.nombre)).length := by
          rcases hl : (cot.filter (fun c => c.name == f.nombre)) with _ | ⟨a, b⟩
          · rw [hl] at hco; simp at hco
          · simp [hl]
        have h2 := filtro_cotizacion_le_uno cot h f.nombre
        simp only [hco, Bool.false_eq_true, if_false, List.length_map]
        omega
      · simp [hco, Nat.add_comm]

/-- C8 amended: the working dataset has one row per stored snapshot —
not one per entity — provided each snapshot's entity id matches exactly
one company row and quote names are distinct; re-running the pool
appends snapshots, so an entity present in `k` runs contributes `k`
rows. -/
theorem c8_dataset_una_fila_por_instantanea (st : Store) (cot : List QuoteRow)
    (hfk : ∀ f ∈ st.finanzas,
      (st.empresas.filter (fun e => e.id == f.empresa_id)).length = 1)
    (hnombres : cot.Pairwise (fun a b => a.name ≠ b.name)) :
    (queryJoined st).length = st.finanzas.length ∧
    (construir_dataset (queryJoined st) cot).length = st.finanzas.length := by
  have h1 : (queryJoined st).length = st.finanzas.length :=
    longitud_queryJoined st.empresas st.finanzas hfk
  exact ⟨h1, by rw [longitud_construir (queryJoined st) cot hnombres, h1]⟩

/-- Witness for `c8_dataset_una_fila_por_instantanea` at the two-run
store: the dataset has exactly as many rows as there are snapshots. -/
theorem c8_testigo :
    (∀ f ∈ tiendaDosCorridas.finanzas,
      (tiendaDosCorridas.empresas.filter (fun e => e.id == f.empresa_id)).length = 1) ∧
    cotizacionBBVA.Pairwise (fun a b => a.name ≠ b.name) ∧
    ((queryJoined tiendaDosCorridas).length = tiendaDosCorridas.finanzas.length ∧
     (construir_dataset (queryJoined tiendaDosCorridas) cotizacionBBVA).length =
       tiendaDosCorridas.finanzas.length) :=
  ⟨by decide, by simp [cotizacionBBVA],
   c8_dataset_una_fila_por_instantanea tiendaDosCorridas cotizacionBBVA
     (by decide) (by simp [cotizacionBBVA])⟩

end Bolsa
